import Mathlib

/-!
Verification of the NBody-WebGPU simulation/render core.

The embedding follows src/src/nbody.ts (host code, with the inline WGSL
shader produced by getShaders) and src/src/shaders.wgsl (the standalone
shader revision).  GPU floating-point numerics are modelled with exact
real arithmetic; WGSL builtins (inverseSqrt) are modelled by their
specified mathematical meaning; JavaScript Math.random() samples appear
as explicit parameters.
-/

namespace NBody

/-- A vec4 of f32 as the shaders use it, modelled over the reals.  The
fourth position component doubles as the body's mass. -/
@[ext]
structure Vec4 where
  x : ℝ
  y : ℝ
  z : ℝ
  w : ℝ

namespace Vec4

/-- Componentwise addition, as WGSL vector addition. -/
def add (a b : Vec4) : Vec4 := ⟨a.x + b.x, a.y + b.y, a.z + b.z, a.w + b.w⟩

/-- Componentwise negation. -/
def neg (a : Vec4) : Vec4 := ⟨-a.x, -a.y, -a.z, -a.w⟩

/-- The zero vector, vec4(0.0). -/
def zero : Vec4 := ⟨0, 0, 0, 0⟩

/-- Scalar multiplication, as WGSL scalar-times-vector. -/
def smul (c : ℝ) (v : Vec4) : Vec4 := ⟨c * v.x, c * v.y, c * v.z, c * v.w⟩

instance : Add Vec4 := ⟨add⟩

instance : Neg Vec4 := ⟨neg⟩

instance : Zero Vec4 := ⟨zero⟩

@[simp] theorem add_x (a b : Vec4) : (a + b).x = a.x + b.x := rfl

@[simp] theorem add_y (a b : Vec4) : (a + b).y = a.y + b.y := rfl

@[simp] theorem add_z (a b : Vec4) : (a + b).z = a.z + b.z := rfl

@[simp] theorem add_w (a b : Vec4) : (a + b).w = a.w + b.w := rfl

@[simp] theorem neg_x (a : Vec4) : (-a).x = -a.x := rfl

@[simp] theorem neg_y (a : Vec4) : (-a).y = -a.y := rfl

@[simp] theorem neg_z (a : Vec4) : (-a).z = -a.z := rfl

@[simp] theorem neg_w (a : Vec4) : (-a).w = -a.w := rfl

@[simp] theorem zero_x : (0 : Vec4).x = 0 := rfl

@[simp] theorem zero_y : (0 : Vec4).y = 0 := rfl

@[simp] theorem zero_z : (0 : Vec4).z = 0 := rfl

@[simp] theorem zero_w : (0 : Vec4).w = 0 := rfl

@[simp] theorem smul_x (c : ℝ) (v : Vec4) : (smul c v).x = c * v.x := rfl

@[simp] theorem smul_y (c : ℝ) (v : Vec4) : (smul c v).y = c * v.y := rfl

@[simp] theorem smul_z (c : ℝ) (v : Vec4) : (smul c v).z = c * v.z := rfl

@[simp] theorem smul_w (c : ℝ) (v : Vec4) : (smul c v).w = c * v.w := rfl

@[simp] theorem mk_x (a b c d : ℝ) : (Vec4.mk a b c d).x = a := rfl

@[simp] theorem mk_y (a b c d : ℝ) : (Vec4.mk a b c d).y = b := rfl

@[simp] theorem mk_z (a b c d : ℝ) : (Vec4.mk a b c d).z = c := rfl

@[simp] theorem mk_w (a b c d : ℝ) : (Vec4.mk a b c d).w = d := rfl

instance : AddCommGroup Vec4 where
  add_assoc a b c := by ext <;> simp [add_assoc]
  zero_add a := by ext <;> simp
  add_zero a := by ext <;> simp
  add_comm a b := by ext <;> simp [add_comm]
  neg_add_cancel a := by ext <;> simp
  nsmul := nsmulRec
  zsmul := zsmulRec

theorem smul_neg (c : ℝ) (v : Vec4) : smul c (-v) = -(smul c v) := by
  ext <;> simp

end Vec4

/-! Simulation parameters from the shader source. -/

/-- let kDelta = 0.000025 (the fixed timestep). -/
def kDelta : ℝ := 0.000025

/-- let kSoftening = 0.2 (the softening constant). -/
def kSoftening : ℝ := 0.2

/-- The WGSL builtin inverseSqrt: one over the square root. -/
noncomputable def inverseSqrt (x : ℝ) : ℝ := (Real.sqrt x)⁻¹

/-- fn computeForce(ipos, jpos) from the compute shader: softened
inverse-square force contribution of body j on body i. -/
noncomputable def computeForce (ipos jpos : Vec4) : Vec4 :=
  let d : Vec4 := ⟨jpos.x - ipos.x, jpos.y - ipos.y, jpos.z - ipos.z, 0⟩
  let distSq := d.x * d.x + d.y * d.y + d.z * d.z + kSoftening * kSoftening
  let dist := inverseSqrt distSq
  let coeff := jpos.w * (dist * dist * dist)
  Vec4.smul coeff d

/-- The force-accumulation loop of cs_main:
for (var i = 0; i < kNumBodies; i = i + 1) force = force + computeForce(pos, positionsIn.data[i]). -/
noncomputable def forceLoop (numBodies : ℕ) (positionsIn : ℕ → Vec4) (pos : Vec4) : Vec4 :=
  (List.range numBodies).foldl (fun force i => force + computeForce pos (positionsIn i)) 0

/-- fn cs_main for one invocation idx: reads positionsIn and velocities,
accumulates the force over all bodies, updates the velocity, then writes
the new position from the updated velocity.  Returns
(positionsOut.data[idx], velocities.data[idx] after the store). -/
noncomputable def cs_main (numBodies : ℕ) (positionsIn velocities : ℕ → Vec4)
    (idx : ℕ) : Vec4 × Vec4 :=
  let pos := positionsIn idx
  let force := forceLoop numBodies positionsIn pos
  let velocity := velocities idx + Vec4.smul kDelta force
  (pos + Vec4.smul kDelta velocity, velocity)

/-- One whole simulation step: cs_main dispatched over every body index. -/
noncomputable def stepState (numBodies : ℕ) (s : (ℕ → Vec4) × (ℕ → Vec4)) :
    (ℕ → Vec4) × (ℕ → Vec4) :=
  (fun i => (cs_main numBodies s.1 s.2 i).1, fun i => (cs_main numBodies s.1 s.2 i).2)

/-- K simulation steps from an initial (positions, velocities) state. -/
noncomputable def iterateStep (numBodies K : ℕ) (s : (ℕ → Vec4) × (ℕ → Vec4)) :
    (ℕ → Vec4) × (ℕ → Vec4) :=
  (stepState numBodies)^[K] s

/-! Host-side model: configuration, pipelines, the per-frame draw. -/

/-- The two UI-selected values run() reads: numBodies and workgroupSize. -/
structure SimulationConfig where
  numBodies : ℕ
  workgroupSize : ℕ

/-- run() (nbody.ts): ensures the device exists, reads numBodies and
workgroupSize from the two drop-down lists, and unconditionally calls
initPipelines.  It contains no validation of any kind, so it never
rejects a configuration: modelled as always returning the applied
configuration, where a rejection would be none. -/
def run (selectedNumBodies selectedWorkgroupSize : ℕ) : Option SimulationConfig :=
  some ⟨selectedNumBodies, selectedWorkgroupSize⟩

/-- The argument the host passes to computePassEncoder.dispatch:
numBodies / workgroupSize as JavaScript number division, an exact
rational. -/
def dispatchArg (cfg : SimulationConfig) : ℚ :=
  (cfg.numBodies : ℚ) / (cfg.workgroupSize : ℚ)

/-- The workgroup count the WebGPU dispatch actually receives: the IDL
conversion to GPUSize32 truncates a fractional JavaScript number toward
zero, which on naturals is floor division. -/
def dispatchCount (cfg : SimulationConfig) : ℕ :=
  cfg.numBodies / cfg.workgroupSize

/-- The three GPUBuffer references held in the host's module-level
variables; the payload is an identifier of the underlying storage
object. -/
structure GPUBuffers where
  positionsIn : ℕ
  positionsOut : ℕ
  velocities : ℕ

/-- What one draw() call submits to the queue. -/
structure FrameSubmission where
  computeBindIn : ℕ
  computeBindOut : ℕ
  computeBindVel : ℕ
  dispatchWorkgroups : ℕ
  renderVertexBuffer : ℕ
  vertexCount : ℕ
  instanceCount : ℕ

/-- draw() (nbody.ts): builds the compute bind group from the current
buffer references (bindings 0, 1, 2), dispatches
numBodies / workgroupSize workgroups, binds positionsOut as vertex
buffer slot 0 for the render pass, issues draw(3, numBodies), submits,
and finally swaps the positionsIn / positionsOut references. -/
def drawFrame (cfg : SimulationConfig) (s : GPUBuffers) : FrameSubmission × GPUBuffers :=
  (⟨s.positionsIn, s.positionsOut, s.velocities,
    dispatchCount cfg, s.positionsOut, 3, cfg.numBodies⟩,
   ⟨s.positionsOut, s.positionsIn, s.velocities⟩)

/-! Initial state: initBodies and the unwritten velocities buffer. -/

/-- const kRadius = 0.6 in initBodies. -/
def kRadius : ℝ := 0.6

/-- One iteration of the initBodies loop, given the two Math.random()
samples u1 and u2 it draws: a position on the sphere of radius kRadius
with mass 1 in the fourth component. -/
noncomputable def initBody (u1 u2 : ℝ) : Vec4 :=
  let longitude := 2 * Real.pi * u1
  let latitude := Real.arccos (2 * u2 - 1)
  ⟨kRadius * Real.sin latitude * Real.cos longitude,
   kRadius * Real.sin latitude * Real.sin longitude,
   kRadius * Real.cos latitude,
   1⟩

/-- initBodies (nbody.ts): fills the mapped positionsIn buffer, drawing
two fresh uniform samples per body. -/
noncomputable def initBodies (rand : ℕ → ℝ × ℝ) : ℕ → Vec4 :=
  fun i => initBody (rand i).1 (rand i).2

/-- The velocities buffer as created by initPipelines: mappedAtCreation
is false and no host code ever writes it, so its contents are the
all-zero fill that WebGPU guarantees for newly created buffers. -/
def velocitiesAtCreation : ℕ → Vec4 := fun _ => 0

theorem forceLoop_eq_sum (numBodies : ℕ) (ps : ℕ → Vec4) (pos : Vec4) :
    forceLoop numBodies ps pos = ∑ j ∈ Finset.range numBodies, computeForce pos (ps j) := by
  induction numBodies with
  | zero => simp [forceLoop]
  | succ n ih =>
      rw [forceLoop, List.range_succ, List.foldl_append]
      simp only [List.foldl_cons, List.foldl_nil]
      rw [← forceLoop, ih, Finset.sum_range_succ]

theorem cs_main_fst (numBodies : ℕ) (ps vs : ℕ → Vec4) (idx : ℕ) :
    (cs_main numBodies ps vs idx).1 =
      ps idx + Vec4.smul kDelta (vs idx + Vec4.smul kDelta (forceLoop numBodies ps (ps idx))) := rfl

theorem cs_main_snd (numBodies : ℕ) (ps vs : ℕ → Vec4) (idx : ℕ) :
    (cs_main numBodies ps vs idx).2 =
      vs idx + Vec4.smul kDelta (forceLoop numBodies ps (ps idx)) := rfl

/-- The squared softened distance of computeForce, written with squares
as the spec states it. -/
noncomputable def distSqOf (ipos jpos : Vec4) : ℝ :=
  (jpos.x - ipos.x) ^ 2 + (jpos.y - ipos.y) ^ 2 + (jpos.z - ipos.z) ^ 2 + kSoftening ^ 2

theorem computeForce_eq (ipos jpos : Vec4) :
    computeForce ipos jpos =
      Vec4.smul (jpos.w * inverseSqrt (distSqOf ipos jpos) ^ 3)
        ⟨jpos.x - ipos.x, jpos.y - ipos.y, jpos.z - ipos.z, 0⟩ := by
  have h : (jpos.x - ipos.x) * (jpos.x - ipos.x) + (jpos.y - ipos.y) * (jpos.y - ipos.y) +
      (jpos.z - ipos.z) * (jpos.z - ipos.z) + kSoftening * kSoftening = distSqOf ipos jpos := by
    simp only [distSqOf]
    ring
  simp only [computeForce, Vec4.mk_x, Vec4.mk_y, Vec4.mk_z]
  rw [h]
  ext <;>
    simp only [Vec4.smul_x, Vec4.smul_y, Vec4.smul_z, Vec4.smul_w,
      Vec4.mk_x, Vec4.mk_y, Vec4.mk_z, Vec4.mk_w] <;>
    ring

theorem computeForce_w (ipos jpos : Vec4) : (computeForce ipos jpos).w = 0 := by
  rw [computeForce_eq]
  simp

theorem computeForce_self (p : Vec4) : computeForce p p = 0 := by
  rw [computeForce_eq]
  ext <;> simp

theorem w_finset_sum (s : Finset ℕ) (f : ℕ → Vec4) :
    (∑ j ∈ s, f j).w = ∑ j ∈ s, (f j).w := by
  induction s using Finset.cons_induction with
  | empty => simp
  | cons a s ha ih => rw [Finset.sum_cons, Finset.sum_cons, Vec4.add_w, ih]

theorem forceLoop_two (ps : ℕ → Vec4) (pos : Vec4) :
    forceLoop 2 ps pos = computeForce pos (ps 0) + computeForce pos (ps 1) := by
  rw [forceLoop_eq_sum, Finset.sum_range_succ, Finset.sum_range_one]

/-- The mirror image of a body state: opposite position, same mass. -/
def mirrorPos (p : Vec4) : Vec4 := ⟨-p.x, -p.y, -p.z, p.w⟩

theorem computeForce_mirror (p : Vec4) :
    computeForce (mirrorPos p) p = -(computeForce p (mirrorPos p)) := by
  rw [computeForce_eq, computeForce_eq]
  have h : distSqOf (mirrorPos p) p = distSqOf p (mirrorPos p) := by
    simp only [distSqOf, mirrorPos, Vec4.mk_x, Vec4.mk_y, Vec4.mk_z]
    ring
  rw [h]
  ext <;> simp [mirrorPos] <;> ring

/-- The mirror-symmetry invariant of the symmetric two-body system:
body 1 is the mirror of body 0 with the same mass, the velocities are
opposite, and the velocity's fourth component is zero. -/
def TwoBodyMirror (s : (ℕ → Vec4) × (ℕ → Vec4)) : Prop :=
  s.1 1 = mirrorPos (s.1 0) ∧ s.2 1 = -(s.2 0) ∧ (s.2 0).w = 0

theorem stepState_mirror (s : (ℕ → Vec4) × (ℕ → Vec4)) (h : TwoBodyMirror s) :
    TwoBodyMirror (stepState 2 s) := by
  obtain ⟨hp, hv, hw⟩ := h
  have hF0 : forceLoop 2 s.1 (s.1 0) = computeForce (s.1 0) (mirrorPos (s.1 0)) := by
    rw [forceLoop_two, hp, computeForce_self, zero_add]
  have hF1 : forceLoop 2 s.1 (s.1 1) = -(computeForce (s.1 0) (mirrorPos (s.1 0))) := by
    rw [forceLoop_two, hp, computeForce_self, add_zero, computeForce_mirror]
  refine ⟨?_, ?_, ?_⟩
  · show (cs_main 2 s.1 s.2 1).1 = mirrorPos (cs_main 2 s.1 s.2 0).1
    rw [cs_main_fst, cs_main_fst, hF0, hF1, hp, hv]
    ext <;> simp [mirrorPos, hw, computeForce_w] <;> ring
  · show (cs_main 2 s.1 s.2 1).2 = -(cs_main 2 s.1 s.2 0).2
    rw [cs_main_snd, cs_main_snd, hF0, hF1, hv, Vec4.smul_neg]
    abel
  · show ((cs_main 2 s.1 s.2 0).2).w = 0
    rw [cs_main_snd, hF0]
    simp [hw, computeForce_w]

theorem iterateStep_mirror (s : (ℕ → Vec4) × (ℕ → Vec4)) (K : ℕ)
    (h : TwoBodyMirror s) : TwoBodyMirror (iterateStep 2 K s) := by
  induction K with
  | zero => simpa [iterateStep]
  | succ n ih =>
      rw [iterateStep, Function.iterate_succ_apply']
      exact stepState_mirror _ ih

/-! The vertex stages of the two shader revisions. -/

/-- The three-entry vertexOffsets table of the inline vertex shader in
getShaders (nbody.ts). -/
noncomputable def vertexOffsetsInline : Fin 3 → ℝ × ℝ
  | 0 => (0.01, -0.01)
  | 1 => (-0.01, -0.01)
  | 2 => (0.0, 0.01)

/-- vs_main of the inline shader in getShaders: offsets the body's
position in xy by the per-vertex table entry, passing zw through. -/
noncomputable def vs_main (position : Vec4) (vertex : Fin 3) : Vec4 :=
  ⟨position.x + (vertexOffsetsInline vertex).1,
   position.y + (vertexOffsetsInline vertex).2,
   position.z, position.w⟩

/-- let kPointRadius = 0.005 in vs_main of shaders.wgsl. -/
noncomputable def kPointRadius : ℝ := 0.005

/-- The six-entry quad table (two triangles) of vs_main in
shaders.wgsl, scaled there by kPointRadius. -/
noncomputable def vertexOffsetsQuad : Fin 6 → ℝ × ℝ
  | 0 => (1, -1)
  | 1 => (-1, -1)
  | 2 => (-1, 1)
  | 3 => (-1, 1)
  | 4 => (1, 1)
  | 5 => (1, -1)

/-- A concrete symmetric two-body initial state: body 1 mirrors body 0,
equal masses, zero velocities. -/
noncomputable def twoBodyWitnessState : (ℕ → Vec4) × (ℕ → Vec4) :=
  (fun i => if i = 0 then Vec4.mk 1 2 3 1 else mirrorPos (Vec4.mk 1 2 3 1), fun _ => 0)

/-! The claims. -/

/-- C1: one simulation step computes, for every body index i, the total
force as the sum of computeForce over all j in [0, N) — the self term
j = i included, with no special-casing — then updates the velocity by
force_total * kDelta and writes the output position from the
already-updated velocity (semi-implicit Euler). -/
theorem step_is_semi_implicit_euler (N : ℕ) (ps vs : ℕ → Vec4) (i : ℕ) :
    (cs_main N ps vs i).2 =
      vs i + Vec4.smul kDelta (∑ j ∈ Finset.range N, computeForce (ps i) (ps j)) ∧
    (cs_main N ps vs i).1 = ps i + Vec4.smul kDelta ((cs_main N ps vs i).2) := by
  refine ⟨?_, rfl⟩
  rw [cs_main_snd, forceLoop_eq_sum]

/-- C2: computeForce returns coeff times the displacement d, where d is
the xyz difference with fourth component 0, distSq is the squared norm
of d plus the squared softening constant, invDist is one over the square
root of distSq, and coeff is the source body's mass (its fourth position
component) times invDist cubed; the returned fourth component is 0. -/
theorem computeForce_matches_spec (ipos jpos : Vec4) :
    computeForce ipos jpos =
      Vec4.smul (jpos.w * (Real.sqrt (distSqOf ipos jpos))⁻¹ ^ 3)
        ⟨jpos.x - ipos.x, jpos.y - ipos.y, jpos.z - ipos.z, 0⟩ ∧
    (computeForce ipos jpos).w = 0 :=
  ⟨computeForce_eq ipos jpos, computeForce_w ipos jpos⟩

/-- C3 counterexample: with numBodies 100 and workgroupSize 7 — which
does not divide 100 — run() still accepts the configuration and
rebuilds the pipelines, and the dispatch is silently truncated to 14
workgroups, which cover only 98 of the 100 bodies. -/
theorem run_accepts_non_divisible_config :
    run 100 7 = some ⟨100, 7⟩ ∧ ¬ 7 ∣ 100 ∧
    dispatchCount ⟨100, 7⟩ = 14 ∧ dispatchCount ⟨100, 7⟩ * 7 ≠ 100 :=
  ⟨rfl, by decide, by decide, by decide⟩

/-- C3 amended: run() performs no divisibility validation — it accepts
every configuration — and when workgroupSize does divide numBodies the
truncated dispatch count is exact: it times workgroupSize recovers
numBodies. -/
theorem run_accepts_every_config_dispatch_exact (cfg : SimulationConfig)
    (h : cfg.workgroupSize ∣ cfg.numBodies) :
    run cfg.numBodies cfg.workgroupSize = some ⟨cfg.numBodies, cfg.workgroupSize⟩ ∧
    dispatchCount cfg * cfg.workgroupSize = cfg.numBodies :=
  ⟨rfl, Nat.div_mul_cancel h⟩

theorem run_accepts_every_config_dispatch_exact_witness :
    run 100 10 = some ⟨100, 10⟩ ∧ dispatchCount ⟨100, 10⟩ * 10 = 100 :=
  run_accepts_every_config_dispatch_exact ⟨100, 10⟩ (by decide)

/-- C4: in every frame, the render pass's vertex buffer is exactly the
buffer the compute pass binds as positionsOut (binding 1), and — the two
position buffers being distinct storage objects — never the stale
positionsIn buffer the step read from. -/
theorem render_reads_buffer_just_written (cfg : SimulationConfig) (s : GPUBuffers)
    (h : s.positionsIn ≠ s.positionsOut) :
    (drawFrame cfg s).1.renderVertexBuffer = (drawFrame cfg s).1.computeBindOut ∧
    (drawFrame cfg s).1.renderVertexBuffer ≠ (drawFrame cfg s).1.computeBindIn :=
  ⟨rfl, fun hc => h hc.symm⟩

theorem render_reads_buffer_just_written_witness :
    (drawFrame ⟨2, 1⟩ ⟨0, 1, 2⟩).1.renderVertexBuffer = (drawFrame ⟨2, 1⟩ ⟨0, 1, 2⟩).1.computeBindOut ∧
    (drawFrame ⟨2, 1⟩ ⟨0, 1, 2⟩).1.renderVertexBuffer ≠ (drawFrame ⟨2, 1⟩ ⟨0, 1, 2⟩).1.computeBindIn :=
  render_reads_buffer_just_written ⟨2, 1⟩ ⟨0, 1, 2⟩ (by decide)

/-- C5: the post-frame swap of the position buffer references is an
involution — after exactly two frames the whole buffer set, in
particular the buffer designated positionsIn, is restored — and the next
frame's positionsIn is exactly the buffer the previous frame's compute
pass wrote. -/
theorem buffer_swap_involution (cfg : SimulationConfig) (s : GPUBuffers) :
    (drawFrame cfg (drawFrame cfg s).2).2 = s ∧
    (drawFrame cfg s).2.positionsIn = (drawFrame cfg s).1.computeBindOut :=
  ⟨rfl, rfl⟩

/-- C6: the simulation never mutates mass: with the velocity's fourth
component zero (as it is from buffer creation on, since every force has
fourth component 0), the output position's fourth component equals the
input's, the updated velocity's fourth component stays zero, and
initBody gives every body mass 1. -/
theorem mass_never_mutated (N : ℕ) (ps vs : ℕ → Vec4) (i : ℕ)
    (hw : (vs i).w = 0) :
    ((cs_main N ps vs i).1).w = (ps i).w ∧
    ((cs_main N ps vs i).2).w = 0 ∧
    ∀ u1 u2 : ℝ, (initBody u1 u2).w = 1 := by
  have hforce : (forceLoop N ps (ps i)).w = 0 := by
    rw [forceLoop_eq_sum, w_finset_sum]
    simp [computeForce_w]
  have h2 : ((cs_main N ps vs i).2).w = 0 := by
    rw [cs_main_snd]
    simp [hw, hforce]
  refine ⟨?_, h2, fun u1 u2 => rfl⟩
  have h1 : (cs_main N ps vs i).1 = ps i + Vec4.smul kDelta ((cs_main N ps vs i).2) := rfl
  rw [h1]
  simp [h2]

theorem mass_never_mutated_witness :
    ((cs_main 1 (fun _ => Vec4.mk 0 0 0 1) (fun _ => 0) 0).1).w = (Vec4.mk 0 0 0 1).w ∧
    ((cs_main 1 (fun _ => Vec4.mk 0 0 0 1) (fun _ => 0) 0).2).w = 0 ∧
    ∀ u1 u2 : ℝ, (initBody u1 u2).w = 1 :=
  mass_never_mutated 1 (fun _ => Vec4.mk 0 0 0 1) (fun _ => 0) 0 rfl

/-- C7: for a two-body system with equal masses, positions mirrored
about the origin and zero initial velocities, after any number K of
steps the center of mass stays at the origin: the forces stay equal and
opposite, so the two bodies remain exact mirror images. -/
theorem two_body_center_of_mass_fixed (s : (ℕ → Vec4) × (ℕ → Vec4)) (K : ℕ)
    (hp : s.1 1 = mirrorPos (s.1 0)) (hv0 : s.2 0 = 0) (hv1 : s.2 1 = 0) :
    (((iterateStep 2 K s).1 0).x + ((iterateStep 2 K s).1 1).x) / 2 = 0 ∧
    (((iterateStep 2 K s).1 0).y + ((iterateStep 2 K s).1 1).y) / 2 = 0 ∧
    (((iterateStep 2 K s).1 0).z + ((iterateStep 2 K s).1 1).z) / 2 = 0 := by
  have hm : TwoBodyMirror s := by
    refine ⟨hp, ?_, ?_⟩
    · rw [hv0, hv1, neg_zero]
    · rw [hv0]
      rfl
  obtain ⟨h1, -, -⟩ := iterateStep_mirror s K hm
  rw [h1]
  refine ⟨?_, ?_, ?_⟩ <;> simp [mirrorPos]

theorem two_body_center_of_mass_fixed_witness :
    (((iterateStep 2 5 twoBodyWitnessState).1 0).x + ((iterateStep 2 5 twoBodyWitnessState).1 1).x) / 2 = 0 ∧
    (((iterateStep 2 5 twoBodyWitnessState).1 0).y + ((iterateStep 2 5 twoBodyWitnessState).1 1).y) / 2 = 0 ∧
    (((iterateStep 2 5 twoBodyWitnessState).1 0).z + ((iterateStep 2 5 twoBodyWitnessState).1 1).z) / 2 = 0 :=
  two_body_center_of_mass_fixed twoBodyWitnessState 5 (by simp [twoBodyWitnessState]) rfl rfl

/-- C8: every body initBodies produces lies exactly on the sphere of
radius kRadius (so the mean radial distance of any sample is kRadius),
its mass is 1, and the velocity it starts from is the zero buffer
fill. -/
theorem initBodies_on_sphere (rand : ℕ → ℝ × ℝ) (i : ℕ) :
    Real.sqrt ((initBodies rand i).x ^ 2 + (initBodies rand i).y ^ 2 + (initBodies rand i).z ^ 2) =
      kRadius ∧
    (initBodies rand i).w = 1 ∧
    velocitiesAtCreation i = 0 := by
  refine ⟨?_, rfl, rfl⟩
  have hsq : (initBodies rand i).x ^ 2 + (initBodies rand i).y ^ 2 + (initBodies rand i).z ^ 2 =
      kRadius ^ 2 := by
    simp only [initBodies, initBody, Vec4.mk_x, Vec4.mk_y, Vec4.mk_z]
    have h1 := Real.sin_sq_add_cos_sq (2 * Real.pi * (rand i).1)
    have h2 := Real.sin_sq_add_cos_sq (Real.arccos (2 * (rand i).2 - 1))
    linear_combination
      (kRadius ^ 2 * Real.sin (Real.arccos (2 * (rand i).2 - 1)) ^ 2) * h1 + kRadius ^ 2 * h2
  rw [hsq]
  exact Real.sqrt_sq (by norm_num [kRadius])

/-- C9 counterexample: the render pass of draw() issues 3 vertices per
instance — a single triangle — not the six-vertex quad the claim
states. -/
theorem render_three_vertices_not_six :
    (drawFrame ⟨4, 2⟩ ⟨0, 1, 2⟩).1.vertexCount = 3 ∧
    (drawFrame ⟨4, 2⟩ ⟨0, 1, 2⟩).1.vertexCount ≠ 6 :=
  ⟨rfl, by decide⟩

/-- C9 amended: the render stage draws exactly numBodies instances, but
each instance consists of three vertices (one triangle), expanded around
the body's position by the inline shader's fixed offset table of extent
0.01, with z and w passed through; the six-vertex quad table scaled by
kPointRadius = 0.005 exists only in the standalone shaders.wgsl
revision, whose vertex stage is not the one the host's draw call
drives. -/
theorem render_instance_and_vertex_counts (cfg : SimulationConfig) (s : GPUBuffers)
    (p : Vec4) (v : Fin 3) :
    (drawFrame cfg s).1.instanceCount = cfg.numBodies ∧
    (drawFrame cfg s).1.vertexCount = 3 ∧
    vs_main p v = ⟨p.x + (vertexOffsetsInline v).1, p.y + (vertexOffsetsInline v).2, p.z, p.w⟩ ∧
    |(vertexOffsetsInline v).1| ≤ 0.01 ∧ |(vertexOffsetsInline v).2| ≤ 0.01 ∧
    kPointRadius = 0.005 := by
  refine ⟨rfl, rfl, rfl, ?_, ?_, rfl⟩ <;> fin_cases v <;> simp [vertexOffsetsInline, abs_le] <;> norm_num

/-- C10: the velocities buffer starts all-zero — created unmapped and
never written by any host code, its contents are WebGPU's zero fill —
so the very first step's velocity is exactly zero plus one force
increment. -/
theorem first_step_from_zero_velocity (N : ℕ) (ps : ℕ → Vec4) (i : ℕ) :
    velocitiesAtCreation i = 0 ∧
    (cs_main N ps velocitiesAtCreation i).2 =
      Vec4.smul kDelta (∑ j ∈ Finset.range N, computeForce (ps i) (ps j)) := by
  refine ⟨rfl, ?_⟩
  rw [cs_main_snd, forceLoop_eq_sum]
  simp [velocitiesAtCreation]

end NBody
